import Mathlib

/-!
# Verification of the RAG evaluation and retrieval-scoring engine

Shallow embedding of the algorithmic core of the repository:

* `scripts/ingest_data.py` — `split_text` (overlapping fixed-size chunker);
* `scripts/evaluate_rag.py` — `_tokenize`, `_safe_mean`, `_p95`, `_metric`
  and the per-question scoring loop of `evaluate_and_save`;
* `app/main.py` — the retrieval/refusal branch of `send_message`.

Python strings are modelled as `String`/`List Char`, Python floats as `ℚ`
(all quantities the claims touch are exact decimal/rational values), Python
sets as `Finset String`, fallible provider calls as `Except Unit`.
The `while` loop of `split_text` is modelled with explicit fuel because it
does not terminate for all parameters.
-/

namespace RagEval

/-- Characters stripped by Python `str.strip()` (ASCII whitespace). -/
def pyWhitespace (c : Char) : Bool :=
  c = ' ' || c = '\t' || c = '\n' || c = '\r' || c = '\x0b' || c = '\x0c'

/-- Python `str.lower()` on one character (ASCII range, which is all the
sources use). -/
def lowerChar (c : Char) : Char :=
  if 'A' ≤ c ∧ c ≤ 'Z' then Char.ofNat (c.toNat + 32) else c

/-- Python `str.lower()`. -/
def pyLower (s : String) : String := ⟨s.data.map lowerChar⟩

/-- Python `str.strip()` on a character list. -/
def pyStrip (s : List Char) : List Char :=
  ((s.dropWhile pyWhitespace).reverse.dropWhile pyWhitespace).reverse

/-- Python `str.strip()`. -/
def pyStripS (s : String) : String := ⟨pyStrip s.data⟩

/-- Truthiness of `s.strip()` in Python: the string has a
non-whitespace character. -/
def stripTruthy (s : String) : Bool := s.data.any (fun c => !pyWhitespace c)

/-- Python slice `text[start:stop]` on a character list. -/
def sliceL (text : List Char) (start stop : Nat) : List Char :=
  (text.drop start).take (stop - start)

/-- The `while start < len(text)` loop of `split_text`
(`scripts/ingest_data.py`, lines 13–18), with explicit fuel: each
iteration takes the window `text[start:end]` with
`end = min(start + chunk_size, len(text))`, stops after a window that
reaches the end of the text, and otherwise continues from
`max(0, end - overlap)` (`Nat` subtraction is exactly this clamped
subtraction).  `none` means the fuel ran out before the loop finished. -/
def splitTextLoop (text : List Char) (chunk_size overlap : Nat) :
    Nat → Nat → List (List Char) → Option (List (List Char))
  | 0, _, _ => none
  | fuel + 1, start, acc =>
    if start < text.length then
      let e := min (start + chunk_size) text.length
      let acc' := acc ++ [sliceL text start e]
      if e = text.length then some acc'
      else splitTextLoop text chunk_size overlap fuel (e - overlap) acc'
    else some acc

/-- `split_text(text, chunk_size, overlap)` from `scripts/ingest_data.py`:
strip the text, run the windowing loop, and keep only the windows that are
non-blank (`chunk.strip()` truthy).  Run with the given fuel. -/
def split_textF (fuel : Nat) (text : String) (chunk_size overlap : Nat) :
    Option (List (List Char)) :=
  (splitTextLoop (pyStrip text.data) chunk_size overlap fuel 0 []).map
    (List.filter (fun w => w.any (fun c => !pyWhitespace c)))

/-- `split_text` with enough fuel for every terminating configuration. -/
def split_text (text : String) (chunk_size overlap : Nat) :
    Option (List (List Char)) :=
  split_textF (text.data.length + 1) text chunk_size overlap

/-- The `split_text` loop terminates on this input: some finite fuel
suffices. -/
def splitTerminates (text : String) (chunk_size overlap : Nat) : Prop :=
  ∃ fuel, (splitTextLoop (pyStrip text.data) chunk_size overlap fuel 0 []).isSome

/-- Concatenation-with-overlap: each chunk except the last contributes
everything but its last `overlap` characters. -/
def joinOverlap (overlap : Nat) : List (List Char) → List Char
  | [] => []
  | [c] => c
  | c :: rest => c.take (c.length - overlap) ++ joinOverlap overlap rest

/-- Two consecutive chunks share exactly `overlap` characters: the last
`overlap` characters of the first are the first `overlap` characters of
the second (which is longer than `overlap`). -/
def shareOv (overlap : Nat) (a b : List Char) : Prop :=
  a.drop (a.length - overlap) = b.take overlap ∧ overlap < b.length

end RagEval

namespace RagEval

/-- The loop only ever appends to its accumulator. -/
theorem splitTextLoop_acc (text : List Char) (cs ov : Nat) :
    ∀ fuel start acc,
      splitTextLoop text cs ov fuel start acc =
        (splitTextLoop text cs ov fuel start []).map (acc ++ ·) := by
  intro fuel
  induction fuel with
  | zero => intro start acc; rfl
  | succ fuel ih =>
    intro start acc
    simp only [splitTextLoop]
    by_cases h : start < text.length
    · simp only [h, if_true]
      by_cases he : min (start + cs) text.length = text.length
      · simp [he]
      · simp only [he, if_false]
        rw [ih _ (acc ++ [sliceL text start (min (start + cs) text.length)]),
          ih _ ([] ++ [sliceL text start (min (start + cs) text.length)])]
        cases splitTextLoop text cs ov fuel (min (start + cs) text.length - ov) [] <;> simp
    · simp [h]

/-- With `overlap < chunk_size`, fuel exceeding the remaining length makes
the loop finish. -/
theorem splitTextLoop_total (text : List Char) (cs ov : Nat) (hov : ov < cs) :
    ∀ fuel start acc, text.length - start < fuel →
      (splitTextLoop text cs ov fuel start acc).isSome := by
  intro fuel
  induction fuel with
  | zero => intro start acc h; omega
  | succ fuel ih =>
    intro start acc h
    simp only [splitTextLoop]
    by_cases hs : start < text.length
    · simp only [hs, if_true]
      by_cases he : min (start + cs) text.length = text.length
      · simp [he]
      · have hmin : min (start + cs) text.length = start + cs := by omega
        simp only [he, if_false]
        apply ih
        omega
    · simp [hs]

/-- With `chunk_size ≤ overlap` and text longer than `chunk_size`, the loop
runs out of any amount of fuel: the window start stays at `0` forever. -/
theorem splitTextLoop_none (text : List Char) (cs ov : Nat)
    (hov : cs ≤ ov) (hlen : cs < text.length) :
    ∀ fuel acc, splitTextLoop text cs ov fuel 0 acc = none := by
  intro fuel
  induction fuel with
  | zero => intro acc; rfl
  | succ fuel ih =>
    intro acc
    simp only [splitTextLoop]
    have hs : 0 < text.length := by omega
    have hmin : min (0 + cs) text.length = cs := by omega
    have he : ¬ (min (0 + cs) text.length = text.length) := by omega
    simp only [hs, if_true, he, if_false]
    rw [hmin]
    have : cs - ov = 0 := by omega
    rw [this]
    exact ih _

end RagEval

namespace RagEval

/-- C2: `split_text` does NOT terminate for every input: the claim's own
escape hatches (`max(0, end - overlap)` and the end-of-text break) are not
enough when `overlap ≥ chunk_size` and the stripped text is longer than
`chunk_size`.  Concretely, `split_text("abc", 1, 1)` loops forever: the
window start stays at `0` on every iteration. -/
theorem split_text_nontermination_counterexample :
    ¬ splitTerminates "abc" 1 1 := by
  rintro ⟨fuel, hfuel⟩
  have hstrip : pyStrip "abc".data = ['a', 'b', 'c'] := by decide
  rw [hstrip] at hfuel
  rw [splitTextLoop_none ['a', 'b', 'c'] 1 1 (by omega) (by decide) fuel []] at hfuel
  simp at hfuel

/-- C2 (amended): the `split_text` loop terminates exactly when
`overlap < chunk_size` or the stripped text is no longer than
`chunk_size`; in the remaining configurations (`overlap ≥ chunk_size`
and stripped text longer than `chunk_size`) it loops forever. -/
theorem split_text_terminates_iff (text : String) (chunk_size overlap : Nat) :
    splitTerminates text chunk_size overlap ↔
      (overlap < chunk_size ∨ (pyStrip text.data).length ≤ chunk_size) := by
  constructor
  · intro h
    by_contra hcon
    push_neg at hcon
    obtain ⟨fuel, hfuel⟩ := h
    rw [splitTextLoop_none (pyStrip text.data) chunk_size overlap
      (by omega) (by omega) fuel []] at hfuel
    simp at hfuel
  · rintro (hov | hle)
    · exact ⟨(pyStrip text.data).length + 1,
        splitTextLoop_total _ _ _ hov _ 0 [] (by omega)⟩
    · refine ⟨1, ?_⟩
      simp only [splitTextLoop]
      by_cases hs : 0 < (pyStrip text.data).length
      · have he : min (0 + chunk_size) (pyStrip text.data).length
            = (pyStrip text.data).length := by omega
        simp [hs, he, hle]
      · simp [hs]

end RagEval

namespace RagEval

/-- `joinOverlap` on a cons with non-empty tail. -/
theorem joinOverlap_cons (ov : Nat) (c : List Char) (rest : List (List Char))
    (h : rest ≠ []) :
    joinOverlap ov (c :: rest) = c.take (c.length - ov) ++ joinOverlap ov rest := by
  cases rest with
  | nil => exact absurd rfl h
  | cons r rs => rfl

/-- Invariant of the `split_text` window loop under `overlap < chunk_size`:
starting inside the text, the produced windows reconstruct the remaining
text by concatenation-with-overlap, each window is at most `chunk_size`
long, the first window is `text[start : start+chunk_size]`, and every
consecutive pair of windows shares exactly `overlap` characters. -/
theorem splitTextLoop_spec (text : List Char) (cs ov : Nat) (hov : ov < cs) :
    ∀ fuel start res, start < text.length →
      splitTextLoop text cs ov fuel start [] = some res →
      joinOverlap ov res = text.drop start ∧
      (∀ w ∈ res, w.length ≤ cs) ∧
      res.head? = some (sliceL text start (min (start + cs) text.length)) ∧
      List.Chain' (shareOv ov) res := by
  intro fuel
  induction fuel with
  | zero => intro start res hs h; exact absurd h (by simp [splitTextLoop])
  | succ fuel ih =>
    intro start res hs h
    simp only [splitTextLoop, hs, if_true] at h
    by_cases he : min (start + cs) text.length = text.length
    · rw [if_pos he] at h
      obtain rfl : [sliceL text start (min (start + cs) text.length)] = res := by
        simpa using h
      have hw : sliceL text start (min (start + cs) text.length) = text.drop start := by
        rw [he, sliceL]
        have hlen : text.length - start = (text.drop start).length := by
          rw [List.length_drop]
        rw [hlen, List.take_length]
      refine ⟨by simpa [joinOverlap] using hw, ?_, rfl, List.chain'_singleton _⟩
      intro w hw'
      simp only [List.mem_singleton] at hw'
      subst hw'
      rw [sliceL, List.length_take, List.length_drop]
      omega
    · rw [if_neg he] at h
      have hmin : min (start + cs) text.length = start + cs := by omega
      have hlt : start + cs < text.length := by omega
      set w := sliceL text start (min (start + cs) text.length) with hwdef
      have hwcs : w = (text.drop start).take cs := by
        rw [hwdef, sliceL, hmin]
        congr 1
        omega
      have hwlen : w.length = cs := by
        rw [hwcs, List.length_take, List.length_drop]
        omega
      rw [splitTextLoop_acc] at h
      obtain ⟨res', hres'⟩ :
          ∃ res', splitTextLoop text cs ov fuel (min (start + cs) text.length - ov) []
            = some res' := by
        cases hloop : splitTextLoop text cs ov fuel (min (start + cs) text.length - ov) [] with
        | none => rw [hloop] at h; simp at h
        | some res' => exact ⟨res', rfl⟩
      have hreseq : res = w :: res' := by
        rw [hres'] at h
        simpa using h.symm
      subst hreseq
      have hstart' : min (start + cs) text.length - ov = start + (cs - ov) := by omega
      have hs' : start + (cs - ov) < text.length := by omega
      rw [hstart'] at hres'
      obtain ⟨hjoin', hlen', hhead', hchain'⟩ := ih (start + (cs - ov)) res' hs' hres'
      obtain ⟨r0, rest, rfl⟩ : ∃ r0 rest, res' = r0 :: rest := by
        cases res' with
        | nil => simp at hhead'
        | cons r0 rest => exact ⟨r0, rest, rfl⟩
      have hr0 : r0 = sliceL text (start + (cs - ov))
          (min (start + (cs - ov) + cs) text.length) := by
        simpa using hhead'
      -- the dropped prefix of w equals the text up to the next start
      have hwtake : w.take (w.length - ov) = (text.drop start).take (cs - ov) := by
        rw [hwlen, hwcs, List.take_take]
        congr 1
        omega
      refine ⟨?_, ?_, rfl, ?_⟩
      · rw [joinOverlap_cons ov w _ (by simp), hjoin', hwtake]
        have hdd : text.drop (start + (cs - ov)) = (text.drop start).drop (cs - ov) := by
          rw [List.drop_drop]
        rw [hdd, List.take_append_drop]
      · intro x hx
        rcases List.mem_cons.1 hx with rfl | hx'
        · omega
        · exact hlen' x hx'
      · rw [List.chain'_cons']
        refine ⟨?_, hchain'⟩
        intro y hy
        simp only [List.head?_cons, Option.mem_def, Option.some.injEq] at hy
        subst hy
        constructor
        · rw [hwlen, hwcs, List.drop_take, hr0, sliceL]
          have h1 : cs - (cs - ov) = ov := by omega
          have h2 : (text.drop start).drop (cs - ov) = text.drop (start + (cs - ov)) := by
            rw [List.drop_drop]
          rw [h1, h2, List.take_take]
          congr 1
          omega
        · rw [hr0, sliceL, List.length_take, List.length_drop]
          omega
  
end RagEval

namespace RagEval

/-- C4: the claim fails as stated because `split_text` drops windows that
are whitespace-only, which breaks reconstruction.  Concretely,
`split_text("a b", 1, 0)` (non-empty trimmed input, `overlap < chunk_size`)
returns `["a", "b"]`: the middle window `" "` is dropped, and
concatenation-with-overlap gives `"ab"`, not the trimmed input `"a b"`. -/
theorem split_text_reconstruction_counterexample :
    split_text "a b" 1 0 = some [['a'], ['b']] ∧
      joinOverlap 0 [['a'], ['b']] ≠ pyStrip "a b".data := by
  constructor
  · decide
  · decide

/-- C4 (amended): for `overlap < chunk_size` and non-empty trimmed input,
if no produced window is whitespace-only (so the final filter keeps every
window), then `split_text` returns the windows in left-to-right order,
their concatenation-with-overlap reconstructs the trimmed input, every
window has length at most `chunk_size`, and every pair of consecutive
windows shares exactly `overlap` characters. -/
theorem split_text_correct (text : String) (cs ov : Nat) (ws : List (List Char))
    (hov : ov < cs)
    (hne : pyStrip text.data ≠ [])
    (hws : splitTextLoop (pyStrip text.data) cs ov (text.data.length + 1) 0 [] = some ws)
    (hblank : ∀ w ∈ ws, w.any (fun c => !pyWhitespace c) = true) :
    split_text text cs ov = some ws ∧
      joinOverlap ov ws = pyStrip text.data ∧
      (∀ w ∈ ws, w.length ≤ cs) ∧
      List.Chain' (shareOv ov) ws := by
  have hpos : 0 < (pyStrip text.data).length := List.length_pos.mpr hne
  obtain ⟨hjoin, hlens, hhead, hchain⟩ :=
    splitTextLoop_spec (pyStrip text.data) cs ov hov (text.data.length + 1) 0 ws hpos hws
  refine ⟨?_, by simpa using hjoin, hlens, hchain⟩
  rw [split_text, split_textF, hws, Option.map_some', List.filter_eq_self.mpr hblank]

/-- Witness for the amended C4 at `split_text("abcd", 2, 1)`. -/
theorem split_text_correct_witness :
    split_text "abcd" 2 1 = some [['a','b'], ['b','c'], ['c','d']] ∧
      joinOverlap 1 [['a','b'], ['b','c'], ['c','d']] = pyStrip "abcd".data ∧
      (∀ w ∈ [['a','b'], ['b','c'], ['c','d']], w.length ≤ 2) ∧
      List.Chain' (shareOv 1) [['a','b'], ['b','c'], ['c','d']] :=
  split_text_correct "abcd" 2 1 [['a','b'], ['b','c'], ['c','d']]
    (by omega) (by decide) (by decide) (by decide)

end RagEval

namespace RagEval

/-- `FALLBACK_RESPONSE` from `scripts/evaluate_rag.py`, line 13 (the same
literal appears in `app/main.py`, line 150). -/
def FALLBACK_RESPONSE : String := "I can only answer from the provided PDF documents."

/-- ASCII alphanumeric, the character class of `re.findall(r"[a-zA-Z0-9]+", ...)`. -/
def isAlnum (c : Char) : Bool :=
  ('a' ≤ c && c ≤ 'z') || ('A' ≤ c && c ≤ 'Z') || ('0' ≤ c && c ≤ '9')

/-- Maximal alphanumeric runs of a character list (`cur` is the reversed
run being accumulated). -/
def alnumRunsAux : List Char → List Char → List (List Char)
  | cur, [] => if cur.isEmpty then [] else [cur.reverse]
  | cur, c :: rest =>
    if isAlnum c then alnumRunsAux (c :: cur) rest
    else if cur.isEmpty then alnumRunsAux [] rest
    else cur.reverse :: alnumRunsAux [] rest

/-- `_tokenize` from `scripts/evaluate_rag.py`, lines 16–17:
`set(re.findall(r"[a-zA-Z0-9]+", text.lower()))`. -/
def _tokenize (text : String) : Finset String :=
  ((alnumRunsAux [] (text.data.map lowerChar)).map fun l => (⟨l⟩ : String)).toFinset

/-- `_safe_mean` from `scripts/evaluate_rag.py`, lines 20–21. -/
def _safe_mean (values : List ℚ) : ℚ :=
  if values = [] then 0 else values.sum / (values.length : ℚ)

/-- Ascending insertion used by `sortAsc`. -/
def insertAsc (x : ℚ) : List ℚ → List ℚ
  | [] => [x]
  | y :: ys => if x ≤ y then x :: y :: ys else y :: insertAsc x ys

/-- Python `sorted(values)` (ascending). -/
def sortAsc (l : List ℚ) : List ℚ := l.foldr insertAsc []

/-- `_p95` from `scripts/evaluate_rag.py`, lines 24–29.
`math.ceil(0.95 * n)` is modelled by the exact ceiling
`⌈19n/20⌉ = (19n + 19) / 20`; the double-precision value of `0.95 * n`
rounds to the same ceiling at every realistic list length, e.g. at
`n = 20` the product is exactly `19.0`. -/
def _p95 (values : List ℚ) : ℚ :=
  if values = [] then 0
  else
    let sorted_values := sortAsc values
    let index := max 0 (min (sorted_values.length - 1)
      ((19 * sorted_values.length + 19) / 20 - 1))
    sorted_values.getD index 0

/-- Python `round(x, d)` on exact rationals (round-half-up; Python rounds
half-to-even, but no value any claim evaluates sits at a tie of the
`(d+1)`-th decimal digit). -/
def roundTo (d : Nat) (q : ℚ) : ℚ := ((round (q * 10 ^ d : ℚ) : ℤ) : ℚ) / 10 ^ d

/-- `list(dict.fromkeys(xs))`: deduplication keeping first occurrences in
their original order (`seen` holds the keys already emitted). -/
def dedupFirstAux (seen : List String) : List String → List String
  | [] => []
  | a :: l => if a ∈ seen then dedupFirstAux seen l else a :: dedupFirstAux (a :: seen) l

/-- `unique_sources = list(dict.fromkeys(retrieved_sources))`
(`scripts/evaluate_rag.py`, line 85). -/
def dedupFirst (l : List String) : List String := dedupFirstAux [] l

/-- A retrieved chunk as the evaluation loop sees it. -/
structure Chunk where
  source : String
  chunk_text : String
deriving DecidableEq, Repr

/-- One entry of the ground-truth array. -/
structure GroundTruthRow where
  id : Option String
  question : String
  expected_source : Option String
  expected_answer_keywords : List String
deriving DecidableEq, Repr

/-- One `per_question` record (`scripts/evaluate_rag.py`, lines 142–165). -/
structure EvalRecord where
  id : Option String
  question : String
  expected_source : Option String
  retrieved_sources : List String
  top_source : Option String
  source_rank : Option Nat
  hit_at_1 : Nat
  hit_at_3 : Nat
  hit_at_4 : Nat
  answer : String
  answer_non_empty : Nat
  is_refusal : Nat
  is_grounded : Nat
  answer_context_overlap : ℚ
  expected_keyword_coverage : ℚ
  retrieval_latency_ms : ℚ
  generation_latency_ms : ℚ
  total_latency_ms : ℚ
  context_chars : Nat
  answer_chars : Nat
deriving DecidableEq, Repr

/-- Outputs of one loop iteration: the `per_question` record plus the raw
(unrounded) values appended to the aggregation lists
(`scripts/evaluate_rag.py`, lines 134–140). -/
structure CaseOut where
  record : EvalRecord
  reciprocal_rank : ℚ
  precision_at_k : ℚ
  answer_context_overlap_raw : ℚ
  expected_keyword_coverage_raw : ℚ
  retrieval_ms : ℚ
  generation_ms : ℚ
  total_ms : ℚ
deriving DecidableEq, Repr

/-- One metric dict (`_metric`, `scripts/evaluate_rag.py`, lines 32–39). -/
structure Metric where
  metric_key : String
  metric_label : String
  metric_value : ℚ
  unit : String
  category : String
deriving DecidableEq, Repr

/-- The report dict built by `evaluate_and_save` (lines 213–221). -/
structure Report where
  generated_at : String
  ground_truth_path : String
  prompt_template_id : String
  top_k : Nat
  total_metrics : Nat
  metrics : List Metric
  per_question : List EvalRecord
deriving DecidableEq, Repr

/-- Python `expected_source in xs` where `expected_source` may be `None`
(`None in xs` is `False` for a list of strings). -/
def memOptStr (es : Option String) (xs : List String) : Bool :=
  match es with
  | none => false
  | some s => xs.contains s

/-- Python `xs.index(expected_source)` (only evaluated under a membership
guard, so the `none` value is arbitrary). -/
def idxOptStr (es : Option String) (xs : List String) : Nat :=
  match es with
  | none => 0
  | some s => xs.indexOf s

/-- Python truthiness of the optional `expected_source`: `None` and the
empty string are falsy. -/
def esTruthy (es : Option String) : Bool :=
  match es with
  | none => false
  | some s => !s.isEmpty

/-- One iteration of the `for row in ground_truth` loop of
`evaluate_and_save` (`scripts/evaluate_rag.py`, lines 72–165), as a pure
function of the retrieved chunks, the answer the iteration ends up with,
and the measured wall-clock latencies. -/
def scoreCase (top_k : Nat) (row : GroundTruthRow) (retrieved_chunks : List Chunk)
    (answer : String) (retrieval_ms generation_ms total_ms : ℚ) : CaseOut :=
  let question := pyStripS row.question
  let expected_source := row.expected_source
  let expected_keywords := row.expected_answer_keywords.map pyLower
  let retrieved_sources := retrieved_chunks.map (·.source)
  let unique_sources := dedupFirst retrieved_sources
  let top_source := unique_sources.head?
  let hit_at_1 := if esTruthy expected_source then
      (if top_source = expected_source then 1 else 0) else 0
  let hit_at_3 := if esTruthy expected_source then
      (if memOptStr expected_source (unique_sources.take 3) then 1 else 0) else 0
  let hit_at_4 := if esTruthy expected_source then
      (if memOptStr expected_source (unique_sources.take 4) then 1 else 0) else 0
  let rank_found := esTruthy expected_source
    && memOptStr expected_source (unique_sources.take top_k)
  let rank : Option Nat :=
    if rank_found then some (idxOptStr expected_source (unique_sources.take top_k) + 1)
    else none
  let reciprocal_rank : ℚ :=
    if rank_found then
      1 / ((idxOptStr expected_source (unique_sources.take top_k) : ℚ) + 1)
    else 0
  let context_text := String.intercalate "\n\n" (retrieved_chunks.map (·.chunk_text))
  let answer_tokens := _tokenize answer
  let context_tokens := _tokenize context_text
  let expected_tokens := expected_keywords.toFinset
  let answer_context_overlap : ℚ :=
    if answer_tokens ≠ ∅ then
      ((answer_tokens ∩ context_tokens).card : ℚ) / (answer_tokens.card : ℚ)
    else 0
  let expected_keyword_coverage : ℚ :=
    if expected_tokens ≠ ∅ then
      ((answer_tokens ∩ expected_tokens).card : ℚ) / (expected_tokens.card : ℚ)
    else 0
  let grounded := if stripTruthy answer then
      (if (15 : ℚ) / 100 ≤ answer_context_overlap then 1 else 0) else 0
  let refused := if (pyLower FALLBACK_RESPONSE).data <:+: (pyLower answer).data then 1 else 0
  let answer_non_empty := if stripTruthy answer then 1 else 0
  let precision_at_k : ℚ :=
    (if memOptStr expected_source (unique_sources.take top_k) then 1 else 0) /
      ((max 1 (min top_k unique_sources.length) : Nat) : ℚ)
  { record :=
      { id := row.id
        question := question
        expected_source := expected_source
        retrieved_sources := unique_sources
        top_source := top_source
        source_rank := rank
        hit_at_1 := hit_at_1
        hit_at_3 := hit_at_3
        hit_at_4 := hit_at_4
        answer := answer
        answer_non_empty := answer_non_empty
        is_refusal := refused
        is_grounded := grounded
        answer_context_overlap := roundTo 4 answer_context_overlap
        expected_keyword_coverage := roundTo 4 expected_keyword_coverage
        retrieval_latency_ms := roundTo 2 retrieval_ms
        generation_latency_ms := roundTo 2 generation_ms
        total_latency_ms := roundTo 2 total_ms
        context_chars := context_text.length
        answer_chars := answer.length }
    reciprocal_rank := reciprocal_rank
    precision_at_k := precision_at_k
    answer_context_overlap_raw := answer_context_overlap
    expected_keyword_coverage_raw := expected_keyword_coverage
    retrieval_ms := retrieval_ms
    generation_ms := generation_ms
    total_ms := total_ms }

/-- Environment of one ground-truth case: the row plus the outcomes of the
external provider calls (embedding+retrieval and generation;
`Except.error` models a raised provider exception) and the measured
wall-clock latencies. -/
structure CaseEnv where
  row : GroundTruthRow
  retrieved : Except Unit (List Chunk)
  genResult : Except Unit String
  retrieval_ms : ℚ
  generation_ms : ℚ
  total_ms : ℚ
deriving Repr

/-- One loop iteration including the provider calls: retrieval first
(its exception propagates), then the generation branch — the fallback
answer with no generation call when no chunks were retrieved, otherwise
the generation result (its exception propagates). -/
def runCase (top_k : Nat) (env : CaseEnv) : Except Unit CaseOut := do
  let chunks ← env.retrieved
  let answer ← if chunks.isEmpty then pure FALLBACK_RESPONSE else env.genResult
  pure (scoreCase top_k env.row chunks answer env.retrieval_ms env.generation_ms env.total_ms)

/-- The whole per-question loop; there is no exception handling in
`evaluate_and_save`, so the first provider exception aborts it. -/
def evalLoop (top_k : Nat) : List CaseEnv → Except Unit (List CaseOut)
  | [] => Except.ok []
  | env :: rest => do
    let out ← runCase top_k env
    let outs ← evalLoop top_k rest
    pure (out :: outs)

/-- `_metric` from `scripts/evaluate_rag.py`, lines 32–39. -/
def _metric (metric_key metric_label : String) (metric_value : ℚ)
    (unit category : String) : Metric :=
  { metric_key := metric_key
    metric_label := metric_label
    metric_value := metric_value
    unit := unit
    category := category }

/-- The fixed `metrics` list of `evaluate_and_save`
(`scripts/evaluate_rag.py`, lines 167–211). -/
def metricsList (outs : List CaseOut) : List Metric :=
  let per_question := outs.map (·.record)
  let total_questions : ℚ := (per_question.length : ℚ)
  let hit1 := _safe_mean (per_question.map fun r => (r.hit_at_1 : ℚ))
  let hit3 := _safe_mean (per_question.map fun r => (r.hit_at_3 : ℚ))
  let hit4 := _safe_mean (per_question.map fun r => (r.hit_at_4 : ℚ))
  [ _metric "eval_total_questions" "Total Questions" total_questions "count" "overview",
    _metric "eval_hit_rate_at_1" "Hit Rate @1" hit1 "ratio" "retrieval",
    _metric "eval_hit_rate_at_3" "Hit Rate @3" hit3 "ratio" "retrieval",
    _metric "eval_hit_rate_at_4" "Hit Rate @4" hit4 "ratio" "retrieval",
    _metric "eval_mrr_at_4" "MRR @4"
      (_safe_mean (outs.map (·.reciprocal_rank))) "ratio" "retrieval",
    _metric "eval_exact_source_match_rate" "Exact Source Match" hit1 "ratio" "retrieval",
    _metric "eval_source_precision_at_4" "Source Precision @4"
      (_safe_mean (outs.map (·.precision_at_k))) "ratio" "retrieval",
    _metric "eval_source_recall_at_4" "Source Recall @4" hit4 "ratio" "retrieval",
    _metric "eval_avg_retrieval_latency_ms" "Avg Retrieval Latency"
      (_safe_mean (outs.map (·.retrieval_ms))) "ms" "latency",
    _metric "eval_p95_retrieval_latency_ms" "P95 Retrieval Latency"
      (_p95 (outs.map (·.retrieval_ms))) "ms" "latency",
    _metric "eval_avg_generation_latency_ms" "Avg Generation Latency"
      (_safe_mean (outs.map (·.generation_ms))) "ms" "latency",
    _metric "eval_p95_generation_latency_ms" "P95 Generation Latency"
      (_p95 (outs.map (·.generation_ms))) "ms" "latency",
    _metric "eval_avg_total_latency_ms" "Avg Total Latency"
      (_safe_mean (outs.map (·.total_ms))) "ms" "latency",
    _metric "eval_answer_non_empty_rate" "Answer Non-empty Rate"
      (_safe_mean (per_question.map fun r => (r.answer_non_empty : ℚ))) "ratio" "generation",
    _metric "eval_refusal_rate" "Refusal Rate"
      (_safe_mean (per_question.map fun r => (r.is_refusal : ℚ))) "ratio" "generation",
    _metric "eval_grounded_answer_rate" "Grounded Answer Rate"
      (_safe_mean (per_question.map fun r => (r.is_grounded : ℚ))) "ratio" "generation",
    _metric "eval_avg_answer_context_overlap" "Avg Answer-Context Overlap"
      (_safe_mean (outs.map (·.answer_context_overlap_raw))) "ratio" "generation",
    _metric "eval_avg_expected_keyword_coverage" "Avg Expected Keyword Coverage"
      (_safe_mean (outs.map (·.expected_keyword_coverage_raw))) "ratio" "generation",
    _metric "eval_avg_context_chars" "Avg Context Chars"
      (_safe_mean (per_question.map fun r => (r.context_chars : ℚ))) "count" "context",
    _metric "eval_avg_answer_chars" "Avg Answer Chars"
      (_safe_mean (per_question.map fun r => (r.answer_chars : ℚ))) "count" "context" ]

/-- The report dict (`scripts/evaluate_rag.py`, lines 213–221);
`total_metrics` is `len(metrics)`. -/
def mkReport (generated_at ground_truth_path prompt_template_id : String)
    (top_k : Nat) (outs : List CaseOut) : Report :=
  { generated_at := generated_at
    ground_truth_path := ground_truth_path
    prompt_template_id := prompt_template_id
    top_k := top_k
    total_metrics := (metricsList outs).length
    metrics := metricsList outs
    per_question := outs.map (·.record) }

/-- `evaluate_and_save` (the report it returns and writes), as a function
of the per-case provider outcomes; store seeding, the ingestion bootstrap
and file I/O sit outside the model. -/
def evaluate_and_save (generated_at ground_truth_path prompt_template_id : String)
    (top_k : Nat) (envs : List CaseEnv) : Except Unit Report :=
  (evalLoop top_k envs).map (mkReport generated_at ground_truth_path prompt_template_id top_k)

/-- Ascending insertion for strings. -/
def insertAscStr (x : String) : List String → List String
  | [] => [x]
  | y :: ys => if x ≤ y then x :: y :: ys else y :: insertAscStr x ys

/-- Python `sorted(set(xs))` for a list of strings. -/
def pySortedSet (xs : List String) : List String :=
  (dedupFirst xs).foldr insertAscStr []

/-- The retrieval/answer branch of `send_message` (`app/main.py`,
lines 148–159): the fixed refusal with no generation call when retrieval
returned nothing, the generation result otherwise; the returned sources
are the sorted set of retrieved chunk sources. -/
def send_message_core (context_chunks : List Chunk) (genResult : Except Unit String) :
    Except Unit (String × List String) := do
  let assistant_text ←
    if context_chunks.isEmpty then pure "I can only answer from the provided PDF documents."
    else genResult
  pure (assistant_text, pySortedSet (context_chunks.map (·.source)))

/-- The chunks a successful retrieval returned (only used under a success
hypothesis; `[]` on the failure constructor is arbitrary). -/
def envChunks (env : CaseEnv) : List Chunk :=
  match env.retrieved with
  | Except.ok chunks => chunks
  | Except.error _ => []

/-- The answer an iteration ends with when its provider calls succeed. -/
def envAnswer (env : CaseEnv) : String :=
  if (envChunks env).isEmpty then FALLBACK_RESPONSE
  else
    match env.genResult with
    | Except.ok s => s
    | Except.error _ => ""

/-- All provider calls of this case succeed (generation is only called
when retrieval returned chunks). -/
def caseOk (env : CaseEnv) : Bool :=
  match env.retrieved with
  | Except.error _ => false
  | Except.ok chunks => chunks.isEmpty || env.genResult.isOk

end RagEval

namespace RagEval

/-- Spec-side definition (claim C7's words, for comparison with the code):
the per-question precision proxy over the deduplicated (ranked) source
list. -/
def precisionSpec (expected_source : Option String) (ranked : List String)
    (top_k : Nat) : ℚ :=
  (if memOptStr expected_source (ranked.take top_k) then 1 else 0) /
    ((max 1 (min top_k ranked.length) : ℕ) : ℚ)

/-- Spec-side definition (claim C3's words, for comparison with the code):
the expected-keyword list tokenized with the same alphanumeric-run
tokenizer as the answer. -/
def keywordTokensSpec (kws : List String) : Finset String :=
  (kws.map _tokenize).foldr (· ∪ ·) ∅

/-- Spec-side definition (claim C3's words): keyword coverage with the
identical tokenization applied to both the answer and the keyword list. -/
def coverageSpec (answer : String) (kws : List String) : ℚ :=
  if keywordTokensSpec kws ≠ ∅ then
    ((_tokenize answer ∩ keywordTokensSpec kws).card : ℚ) / ((keywordTokensSpec kws).card : ℚ)
  else 0

/-- A case whose provider calls all succeed contributes the `scoreCase` of
its row, its retrieved chunks and its answer. -/
theorem runCase_ok (top_k : Nat) (env : CaseEnv) (h : caseOk env = true) :
    runCase top_k env = Except.ok (scoreCase top_k env.row (envChunks env) (envAnswer env)
      env.retrieval_ms env.generation_ms env.total_ms) := by
  rcases env with ⟨row, retrieved, genResult, rms, gms, tms⟩
  cases retrieved with
  | error e => simp [caseOk] at h
  | ok chunks =>
    cases chunks with
    | nil => rfl
    | cons c cs =>
      cases genResult with
      | error e => simp [caseOk, Except.isOk, Except.toBool, List.isEmpty] at h
      | ok s => rfl

/-- When every case's provider calls succeed, the loop returns one
`scoreCase` output per ground-truth case, in order. -/
theorem evalLoop_ok (top_k : Nat) :
    ∀ envs : List CaseEnv, (∀ env ∈ envs, caseOk env = true) →
      evalLoop top_k envs = Except.ok (envs.map fun env =>
        scoreCase top_k env.row (envChunks env) (envAnswer env)
          env.retrieval_ms env.generation_ms env.total_ms) := by
  intro envs
  induction envs with
  | nil => intro _; rfl
  | cons env rest ih =>
    intro h
    have h1 := h env (List.mem_cons_self env rest)
    have h2 : ∀ e ∈ rest, caseOk e = true := fun e he => h e (List.mem_cons_of_mem _ he)
    simp only [evalLoop]
    rw [runCase_ok top_k env h1, ih h2]
    rfl

end RagEval

namespace RagEval

/-- C1: the claim fails — there is no exception handling in the
evaluation loop, so a failing generation call on the second of three cases
makes `evaluate_and_save` raise instead of producing a report: no report
with a three-entry `per_question` (or any report at all) is produced. -/
theorem evaluate_and_save_failure_counterexample :
    evaluate_and_save "2026-01-01T00:00:00+00:00" "eval/ground_truth_rag.json"
      "persona_professional" 4
      [⟨⟨some "q1", "question one?", some "s1.pdf", ["alpha"]⟩,
          Except.ok [⟨"s1.pdf", "text one"⟩], Except.ok "an answer", 1, 1, 2⟩,
       ⟨⟨some "q2", "question two?", some "s2.pdf", ["beta"]⟩,
          Except.ok [⟨"s2.pdf", "text two"⟩], Except.error (), 1, 1, 2⟩,
       ⟨⟨some "q3", "question three?", some "s3.pdf", ["gamma"]⟩,
          Except.ok [⟨"s3.pdf", "text three"⟩], Except.ok "third answer", 1, 1, 2⟩]
      = Except.error () := rfl

/-- C1 (amended): `evaluate_and_save` does not isolate per-case provider
failures — the first failing provider call aborts the whole run with no
report; when every provider call succeeds, the produced report's
`per_question` has exactly one entry per ground-truth case. -/
theorem evaluate_and_save_success_length
    (generated_at ground_truth_path prompt_template_id : String)
    (top_k : Nat) (envs : List CaseEnv) (hok : ∀ env ∈ envs, caseOk env = true) :
    ∃ r : Report,
      evaluate_and_save generated_at ground_truth_path prompt_template_id top_k envs
          = Except.ok r ∧
        r.per_question.length = envs.length := by
  refine ⟨mkReport generated_at ground_truth_path prompt_template_id top_k
    (envs.map fun env => scoreCase top_k env.row (envChunks env) (envAnswer env)
      env.retrieval_ms env.generation_ms env.total_ms), ?_, ?_⟩
  · rw [evaluate_and_save, evalLoop_ok top_k envs hok]
    rfl
  · simp [mkReport]

/-- Witness for the amended C1 at a two-case environment whose provider
calls all succeed (the second case has an empty retrieval, so its failing
generation outcome is never consulted). -/
theorem evaluate_and_save_success_length_witness :
    ∃ r : Report,
      evaluate_and_save "t" "gt.json" "persona_professional" 4
          [⟨⟨some "q1", "question one?", some "s1.pdf", ["alpha"]⟩,
              Except.ok [⟨"s1.pdf", "text one"⟩], Except.ok "an answer", 1, 1, 2⟩,
           ⟨⟨some "q2", "question two?", none, []⟩,
              Except.ok [], Except.error (), 1, 1, 2⟩]
          = Except.ok r ∧
        r.per_question.length = 2 :=
  evaluate_and_save_success_length "t" "gt.json" "persona_professional" 4 _ (by decide)

/-- C5: with zero retrieved chunks, the evaluation loop and `send_message`
both produce exactly the fixed refusal string as the answer with an empty
sources list and `is_refusal = 1`, and make no generation call: the
result is the same for every generation outcome `gen`/`gen'`, including a
failing provider. -/
theorem empty_retrieval_refusal (top_k : Nat) (row : GroundTruthRow)
    (gen gen' : Except Unit String) (rms gms tms : ℚ) :
    runCase top_k ⟨row, Except.ok [], gen, rms, gms, tms⟩
        = Except.ok (scoreCase top_k row [] FALLBACK_RESPONSE rms gms tms) ∧
      (scoreCase top_k row [] FALLBACK_RESPONSE rms gms tms).record.answer
        = "I can only answer from the provided PDF documents." ∧
      (scoreCase top_k row [] FALLBACK_RESPONSE rms gms tms).record.retrieved_sources = [] ∧
      (scoreCase top_k row [] FALLBACK_RESPONSE rms gms tms).record.is_refusal = 1 ∧
      send_message_core [] gen'
        = Except.ok ("I can only answer from the provided PDF documents.", []) :=
  ⟨rfl, rfl, rfl, rfl, rfl⟩

/-- C10: with zero retrieved chunks the record of the substituted refusal
answer has `answer_context_overlap = 0.0` and `is_grounded = 0` (the
concatenated context is empty, so its token set is empty and the overlap
cannot reach the `0.15` threshold) while `answer_non_empty = 1`. -/
theorem empty_retrieval_not_grounded (top_k : Nat) (row : GroundTruthRow) (rms gms tms : ℚ) :
    (scoreCase top_k row [] FALLBACK_RESPONSE rms gms tms).record.answer_context_overlap = 0 ∧
      (scoreCase top_k row [] FALLBACK_RESPONSE rms gms tms).record.is_grounded = 0 ∧
      (scoreCase top_k row [] FALLBACK_RESPONSE rms gms tms).record.answer_non_empty = 1 := by
  have hov : (scoreCase top_k row [] FALLBACK_RESPONSE rms gms tms).answer_context_overlap_raw
      = 0 := by
    have hr : (scoreCase top_k row [] FALLBACK_RESPONSE rms gms tms).answer_context_overlap_raw
        = (if (_tokenize FALLBACK_RESPONSE : Finset String) ≠ ∅ then
            ((_tokenize FALLBACK_RESPONSE ∩ (∅ : Finset String)).card : ℚ)
              / (((_tokenize FALLBACK_RESPONSE).card : ℕ) : ℚ)
          else 0) := rfl
    rw [hr]
    simp
  refine ⟨?_, ?_, ?_⟩
  · have hr : (scoreCase top_k row [] FALLBACK_RESPONSE rms gms tms).record.answer_context_overlap
        = roundTo 4
            ((scoreCase top_k row [] FALLBACK_RESPONSE rms gms tms).answer_context_overlap_raw) :=
      rfl
    rw [hr, hov]
    simp [roundTo]
  · have hg : (scoreCase top_k row [] FALLBACK_RESPONSE rms gms tms).record.is_grounded
        = (if stripTruthy FALLBACK_RESPONSE then
            (if (15 : ℚ) / 100
                ≤ (scoreCase top_k row [] FALLBACK_RESPONSE rms gms tms).answer_context_overlap_raw
              then 1 else 0)
          else 0) := rfl
    rw [hg, hov]
    have h15 : ¬ ((15 : ℚ) / 100 ≤ 0) := by norm_num
    rw [if_neg h15]
    simp
  · have hn : (scoreCase top_k row [] FALLBACK_RESPONSE rms gms tms).record.answer_non_empty
        = (if stripTruthy FALLBACK_RESPONSE then 1 else 0) := rfl
    rw [hn]
    decide

/-- C3: the claim fails — the expected-keyword list is NOT tokenized the
same way as the answer.  For keyword list `["a-b"]` and answer `"a-b"`
the code keeps the keyword whole (token set `{"a-b"}`) and scores
coverage `0`, while the claimed identical tokenization (`{"a","b"}` on
both sides) scores `1`. -/
theorem keyword_tokenization_counterexample :
    (scoreCase 4 ⟨none, "q", none, ["a-b"]⟩ [] "a-b" 0 0 0).expected_keyword_coverage_raw
        = 0 ∧
      coverageSpec "a-b" ["a-b"] = 1 ∧
      (0 : ℚ) ≠ 1 := by
  refine ⟨?_, ?_, by norm_num⟩
  · have hr : (scoreCase 4 ⟨none, "q", none, ["a-b"]⟩ [] "a-b" 0 0 0).expected_keyword_coverage_raw
        = (if ((["a-b"].map pyLower).toFinset : Finset String) ≠ ∅ then
            ((_tokenize "a-b" ∩ (["a-b"].map pyLower).toFinset).card : ℚ)
              / (((["a-b"].map pyLower).toFinset.card : ℕ) : ℚ)
          else 0) := rfl
    have h1 : (_tokenize "a-b" ∩ (["a-b"].map pyLower).toFinset).card = 0 := by decide
    have h3 : ((["a-b"].map pyLower).toFinset : Finset String) ≠ ∅ := by decide
    rw [hr, if_pos h3, h1]
    norm_num
  · have h4 : keywordTokensSpec ["a-b"] ≠ ∅ := by decide
    have h5 : (_tokenize "a-b" ∩ keywordTokensSpec ["a-b"]).card = 2 := by decide
    have h6 : (keywordTokensSpec ["a-b"]).card = 2 := by decide
    rw [coverageSpec, if_pos h4, h5, h6]
    norm_num

/-- C3 (amended): the answer and the concatenated context are tokenized
case-insensitively into sets of alphanumeric-run tokens, but each expected
keyword is only lowercased whole (never re-tokenized);
`expected_keyword_coverage` is `|answer_tokens ∩ lowered_keywords| /
|lowered_keywords|` over the set of lowercased keywords, `0.0` when that
set is empty. -/
theorem keyword_coverage_formula (top_k : Nat) (row : GroundTruthRow)
    (chunks : List Chunk) (answer : String) (rms gms tms : ℚ) :
    (scoreCase top_k row chunks answer rms gms tms).expected_keyword_coverage_raw
        = (if ((row.expected_answer_keywords.map pyLower).toFinset : Finset String) ≠ ∅ then
            ((_tokenize answer ∩ (row.expected_answer_keywords.map pyLower).toFinset).card : ℚ)
              / (((row.expected_answer_keywords.map pyLower).toFinset.card : ℕ) : ℚ)
          else 0) ∧
      (scoreCase top_k row chunks answer rms gms tms).answer_context_overlap_raw
        = (if (_tokenize answer : Finset String) ≠ ∅ then
            ((_tokenize answer ∩ _tokenize (String.intercalate "\n\n"
                (chunks.map (·.chunk_text)))).card : ℚ) / (((_tokenize answer).card : ℕ) : ℚ)
          else 0) :=
  ⟨rfl, rfl⟩

end RagEval

namespace RagEval

/-- Inserting one element grows the length by one. -/
theorem insertAsc_length (x : ℚ) : ∀ l : List ℚ, (insertAsc x l).length = l.length + 1 := by
  intro l
  induction l with
  | nil => rfl
  | cons y ys ih =>
    simp only [insertAsc]
    by_cases h : x ≤ y
    · simp [h]
    · simp [h, ih]

/-- Sorting preserves the length. -/
theorem sortAsc_length (l : List ℚ) : (sortAsc l).length = l.length := by
  induction l with
  | nil => rfl
  | cons y ys ih =>
    simp only [sortAsc, List.foldr] at ih ⊢
    rw [insertAsc_length, ih, List.length_cons]

/-- The `Nat` ceiling division used by `_p95` agrees with the real
ceiling: `⌈m / 20⌉ = (m + 19) / 20`. -/
theorem natCeil_div_twenty (m : Nat) : ⌈(m : ℚ) / 20⌉₊ = (m + 19) / 20 := by
  have hdm : 20 * ((m + 19) / 20) + (m + 19) % 20 = m + 19 := Nat.div_add_mod _ _
  have hmod : (m + 19) % 20 < 20 := Nat.mod_lt _ (by omega)
  apply le_antisymm
  · rw [Nat.ceil_le, div_le_iff₀ (by norm_num : (0 : ℚ) < 20)]
    have h : m ≤ ((m + 19) / 20) * 20 := by omega
    exact_mod_cast h
  · rcases Nat.eq_zero_or_pos ((m + 19) / 20) with h0 | hpos
    · rw [h0]; exact Nat.zero_le _
    · have hlt : ((m + 19) / 20 - 1 : ℕ) < ⌈(m : ℚ) / 20⌉₊ := by
        rw [Nat.lt_ceil, lt_div_iff₀ (by norm_num : (0 : ℚ) < 20)]
        have h : ((m + 19) / 20 - 1) * 20 < m := by
          have h19 : ((m + 19) / 20) * 20 ≤ m + 19 := by omega
          have : ((m + 19) / 20 - 1) * 20 = ((m + 19) / 20) * 20 - 20 := by
            rw [Nat.sub_mul, one_mul]
          omega
        exact_mod_cast h
      omega

/-- C8: `_safe_mean` is the arithmetic mean, `0.0` on the empty list
(`_safe_mean [2,4] = 3`); `_p95` is `0.0` on the empty list and otherwise
the entry of the ascending-sorted list at index `⌈0.95·n⌉ - 1` clamped to
`[0, n-1]` (for the twenty values `1..20` it returns `19`). -/
theorem safe_mean_p95_correct :
    _safe_mean [] = 0 ∧
      _safe_mean [(2 : ℚ), 4] = 3 ∧
      (∀ l : List ℚ, l ≠ [] → _safe_mean l = l.sum / (l.length : ℚ)) ∧
      _p95 [] = 0 ∧
      (∀ l : List ℚ, l ≠ [] →
        _p95 l = (sortAsc l).getD
          (min (l.length - 1) (⌈(19 * l.length : ℚ) / 20⌉₊ - 1)) 0) ∧
      _p95 ((List.range 20).map fun i => ((i : ℚ) + 1)) = 19 := by
  refine ⟨rfl, ?_, fun l hl => by simp [_safe_mean, hl], rfl, ?_, ?_⟩
  · have h2 : ¬([(2 : ℚ), 4] = []) := List.cons_ne_nil _ _
    simp only [_safe_mean, if_neg h2]
    norm_num
  · intro l hl
    simp only [_p95, hl, if_neg, if_false]
    have hcast : (19 * l.length : ℚ) = (((19 * l.length : ℕ) : ℚ)) := by push_cast; ring
    rw [hcast, natCeil_div_twenty, sortAsc_length]
    congr 1
    omega
  · have hlist : (List.range 20).map (fun i => ((i : ℚ) + 1))
        = [1, 2, 3, 4, 5, 6, 7, 8, 9, 10, 11, 12, 13, 14, 15, 16, 17, 18, 19, 20] := by
      simp [List.range_succ]
      norm_num
    rw [hlist]
    have hsorted : sortAsc [1, 2, 3, 4, 5, 6, 7, 8, 9, 10, 11, 12,
        13, 14, 15, 16, 17, 18, 19, 20]
        = [1, 2, 3, 4, 5, 6, 7, 8, 9, 10, 11, 12, 13, 14, 15, 16, 17, 18, 19, 20] := by
      norm_num [sortAsc, insertAsc]
    simp only [_p95]
    rw [if_neg (by simp), hsorted]
    norm_num

/-- Witness for the universally quantified conjuncts of C8 at the list
`[2, 4]`. -/
theorem safe_mean_p95_correct_witness :
    _safe_mean [(2 : ℚ), 4] = ([(2 : ℚ), 4].sum) / (([(2 : ℚ), 4].length : ℕ) : ℚ) ∧
      _p95 [(2 : ℚ), 4] = (sortAsc [(2 : ℚ), 4]).getD
        (min ([(2 : ℚ), 4].length - 1) (⌈(19 * [(2 : ℚ), 4].length : ℚ) / 20⌉₊ - 1)) 0 :=
  ⟨safe_mean_p95_correct.2.2.1 [(2 : ℚ), 4] (List.cons_ne_nil _ _),
   safe_mean_p95_correct.2.2.2.2.1 [(2 : ℚ), 4] (List.cons_ne_nil _ _)⟩

end RagEval

namespace RagEval

/-- C9: every report `evaluate_and_save` produces carries exactly the 20
fixed metrics, in their fixed order with the stable `metric_key`
identifiers (`eval_total_questions` … `eval_avg_answer_chars`), each with
a unit in {count, ratio, ms} and a category in {overview, retrieval,
latency, generation, context}, and `total_metrics = 20`. -/
theorem report_metrics_contract (generated_at ground_truth_path prompt_template_id : String)
    (top_k : Nat) (envs : List CaseEnv) (r : Report)
    (h : evaluate_and_save generated_at ground_truth_path prompt_template_id top_k envs
      = Except.ok r) :
    r.metrics.map (fun m => m.metric_key) =
        ["eval_total_questions", "eval_hit_rate_at_1", "eval_hit_rate_at_3",
         "eval_hit_rate_at_4", "eval_mrr_at_4", "eval_exact_source_match_rate",
         "eval_source_precision_at_4", "eval_source_recall_at_4",
         "eval_avg_retrieval_latency_ms", "eval_p95_retrieval_latency_ms",
         "eval_avg_generation_latency_ms", "eval_p95_generation_latency_ms",
         "eval_avg_total_latency_ms", "eval_answer_non_empty_rate",
         "eval_refusal_rate", "eval_grounded_answer_rate",
         "eval_avg_answer_context_overlap", "eval_avg_expected_keyword_coverage",
         "eval_avg_context_chars", "eval_avg_answer_chars"] ∧
      (∀ m ∈ r.metrics, m.unit ∈ ["count", "ratio", "ms"] ∧
        m.category ∈ ["overview", "retrieval", "latency", "generation", "context"]) ∧
      r.metrics.length = 20 ∧
      r.total_metrics = 20 := by
  obtain ⟨outs, houts, rfl⟩ : ∃ outs, evalLoop top_k envs = Except.ok outs ∧
      r = mkReport generated_at ground_truth_path prompt_template_id top_k outs := by
    rw [evaluate_and_save] at h
    cases hev : evalLoop top_k envs with
    | error e => rw [hev] at h; exact absurd h (by simp [Except.map])
    | ok outs =>
      rw [hev] at h
      exact ⟨outs, rfl, by simpa [Except.map] using h.symm⟩
  refine ⟨rfl, ?_, rfl, rfl⟩
  intro m hm
  simp only [mkReport, metricsList, _metric, List.mem_cons, List.not_mem_nil, or_false] at hm
  rcases hm with rfl | rfl | rfl | rfl | rfl | rfl | rfl | rfl | rfl | rfl | rfl | rfl | rfl |
    rfl | rfl | rfl | rfl | rfl | rfl | rfl
  all_goals exact ⟨by simp, by simp⟩

/-- Witness for C9 on the empty ground-truth set. -/
theorem report_metrics_contract_witness :
    (mkReport "2026-01-01T00:00:00+00:00" "eval/ground_truth_rag.json"
      "persona_professional" 4 []).total_metrics = 20 :=
  (report_metrics_contract "2026-01-01T00:00:00+00:00" "eval/ground_truth_rag.json"
    "persona_professional" 4 [] _ rfl).2.2.2

end RagEval

namespace RagEval

/-- C7: the per-question precision score is
`(1 if expected_source ∈ ranked[:top_k] else 0) / max(1, min(top_k, |ranked|))`
over the deduplicated source list, and the value reported under
`eval_source_precision_at_4` (the seventh metric) is the arithmetic mean
of these per-question scores. -/
theorem precision_metric_correct (top_k : Nat) (row : GroundTruthRow) (chunks : List Chunk)
    (answer : String) (rms gms tms : ℚ)
    (generated_at ground_truth_path prompt_template_id : String)
    (envs : List CaseEnv) (hok : ∀ env ∈ envs, caseOk env = true) :
    (scoreCase top_k row chunks answer rms gms tms).precision_at_k
        = precisionSpec row.expected_source (dedupFirst (chunks.map (fun c => c.source))) top_k ∧
      ∃ r : Report,
        evaluate_and_save generated_at ground_truth_path prompt_template_id top_k envs
            = Except.ok r ∧
          (r.metrics.map (fun m => (m.metric_key, m.metric_value))).get? 6
            = some ("eval_source_precision_at_4",
                _safe_mean (envs.map fun env =>
                  precisionSpec env.row.expected_source
                    (dedupFirst ((envChunks env).map (fun c => c.source))) top_k)) := by
  refine ⟨rfl, ?_⟩
  refine ⟨mkReport generated_at ground_truth_path prompt_template_id top_k
    (envs.map fun env => scoreCase top_k env.row (envChunks env) (envAnswer env)
      env.retrieval_ms env.generation_ms env.total_ms), ?_, ?_⟩
  · rw [evaluate_and_save, evalLoop_ok top_k envs hok]
    rfl
  · have hmap : ((envs.map fun env => scoreCase top_k env.row (envChunks env) (envAnswer env)
        env.retrieval_ms env.generation_ms env.total_ms).map (fun out => out.precision_at_k))
        = envs.map fun env =>
            precisionSpec env.row.expected_source
              (dedupFirst ((envChunks env).map (fun c => c.source))) top_k := by
      rw [List.map_map]
      exact rfl
    show some ("eval_source_precision_at_4",
        _safe_mean ((envs.map fun env => scoreCase top_k env.row (envChunks env) (envAnswer env)
          env.retrieval_ms env.generation_ms env.total_ms).map (fun out => out.precision_at_k)))
      = some ("eval_source_precision_at_4",
          _safe_mean (envs.map fun env =>
            precisionSpec env.row.expected_source
              (dedupFirst ((envChunks env).map (fun c => c.source))) top_k))
    rw [hmap]

/-- Witness for C7 at a one-chunk case and the empty environment list. -/
theorem precision_metric_correct_witness :
    (scoreCase 4 ⟨none, "wq", some "w1.pdf", []⟩ [⟨"w1.pdf", "wtext"⟩] "wa" 0 0 0).precision_at_k
      = precisionSpec (some "w1.pdf") ["w1.pdf"] 4 :=
  (precision_metric_correct 4 ⟨none, "wq", some "w1.pdf", []⟩ [⟨"w1.pdf", "wtext"⟩] "wa" 0 0 0
    "2026-01-01T00:00:00+00:00" "eval/ground_truth_rag.json" "persona_professional" []
    (by simp)).1

end RagEval

namespace RagEval

/-- C6: with a present (truthy) `expected_source`: `hit_at_1` is `1` iff
the first deduplicated source equals it, `hit_at_3`/`hit_at_4` are `1` iff
it appears in the first 3/4 deduplicated sources, `source_rank` is its
1-indexed position within the first `top_k` (else `none`), and
`reciprocal_rank` is `1/rank` (else `0`); with `expected_source` absent
all of these are zero/none.  At the claim's instance — expected source in
position 2, `top_k = 4` — the values are `0, 1, 1, some 2, 1/2`. -/
theorem rank_metrics_correct (top_k : Nat) (row : GroundTruthRow) (chunks : List Chunk)
    (answer : String) (rms gms tms : ℚ) :
    (∀ es : String, row.expected_source = some es → es ≠ "" →
      ((scoreCase top_k row chunks answer rms gms tms).record.hit_at_1
          = (if (dedupFirst (chunks.map (fun c => c.source))).head? = some es then 1 else 0) ∧
        (scoreCase top_k row chunks answer rms gms tms).record.hit_at_3
          = (if es ∈ (dedupFirst (chunks.map (fun c => c.source))).take 3 then 1 else 0) ∧
        (scoreCase top_k row chunks answer rms gms tms).record.hit_at_4
          = (if es ∈ (dedupFirst (chunks.map (fun c => c.source))).take 4 then 1 else 0) ∧
        (scoreCase top_k row chunks answer rms gms tms).record.source_rank
          = (if es ∈ (dedupFirst (chunks.map (fun c => c.source))).take top_k
             then some (((dedupFirst (chunks.map (fun c => c.source))).take top_k).indexOf es + 1)
             else none) ∧
        (scoreCase top_k row chunks answer rms gms tms).reciprocal_rank
          = (if es ∈ (dedupFirst (chunks.map (fun c => c.source))).take top_k
             then 1 / ((((dedupFirst (chunks.map (fun c => c.source))).take top_k).indexOf es
                 : ℚ) + 1)
             else 0))) ∧
    ((row.expected_source = none ∨ row.expected_source = some "") →
      ((scoreCase top_k row chunks answer rms gms tms).record.hit_at_1 = 0 ∧
        (scoreCase top_k row chunks answer rms gms tms).record.hit_at_3 = 0 ∧
        (scoreCase top_k row chunks answer rms gms tms).record.hit_at_4 = 0 ∧
        (scoreCase top_k row chunks answer rms gms tms).record.source_rank = none ∧
        (scoreCase top_k row chunks answer rms gms tms).reciprocal_rank = 0)) ∧
    ((scoreCase 4 ⟨none, "q", some "s2", []⟩
        [⟨"s1", "a"⟩, ⟨"s2", "b"⟩, ⟨"s3", "c"⟩, ⟨"s4", "d"⟩] "x" 0 0 0).record.hit_at_1 = 0 ∧
      (scoreCase 4 ⟨none, "q", some "s2", []⟩
        [⟨"s1", "a"⟩, ⟨"s2", "b"⟩, ⟨"s3", "c"⟩, ⟨"s4", "d"⟩] "x" 0 0 0).record.hit_at_3 = 1 ∧
      (scoreCase 4 ⟨none, "q", some "s2", []⟩
        [⟨"s1", "a"⟩, ⟨"s2", "b"⟩, ⟨"s3", "c"⟩, ⟨"s4", "d"⟩] "x" 0 0 0).record.hit_at_4 = 1 ∧
      (scoreCase 4 ⟨none, "q", some "s2", []⟩
        [⟨"s1", "a"⟩, ⟨"s2", "b"⟩, ⟨"s3", "c"⟩, ⟨"s4", "d"⟩] "x" 0 0 0).record.source_rank
        = some 2 ∧
      (scoreCase 4 ⟨none, "q", some "s2", []⟩
        [⟨"s1", "a"⟩, ⟨"s2", "b"⟩, ⟨"s3", "c"⟩, ⟨"s4", "d"⟩] "x" 0 0 0).reciprocal_rank
        = 1 / 2) := by
  have hmem : ∀ (s : String) (l : List String), (l.contains s = true) = (s ∈ l) :=
    fun s l => propext ⟨fun h => List.elem_iff.mp h, fun h => List.elem_iff.mpr h⟩
  refine ⟨?_, ?_, ?_⟩
  · intro es hes hne
    have h1 : es.isEmpty = false := by
      cases h : es.isEmpty
      · rfl
      · exact absurd ((String.isEmpty_iff es).mp h) hne
    have hesT : esTruthy (some es) = true := by simp [esTruthy, h1]
    have e1 : (scoreCase top_k row chunks answer rms gms tms).record.hit_at_1
        = (if esTruthy row.expected_source then
            (if (dedupFirst (chunks.map (fun c => c.source))).head? = row.expected_source
             then 1 else 0) else 0) := rfl
    have e3 : (scoreCase top_k row chunks answer rms gms tms).record.hit_at_3
        = (if esTruthy row.expected_source then
            (if memOptStr row.expected_source
                ((dedupFirst (chunks.map (fun c => c.source))).take 3) then 1 else 0)
           else 0) := rfl
    have e4 : (scoreCase top_k row chunks answer rms gms tms).record.hit_at_4
        = (if esTruthy row.expected_source then
            (if memOptStr row.expected_source
                ((dedupFirst (chunks.map (fun c => c.source))).take 4) then 1 else 0)
           else 0) := rfl
    have e5 : (scoreCase top_k row chunks answer rms gms tms).record.source_rank
        = (if esTruthy row.expected_source && memOptStr row.expected_source
              ((dedupFirst (chunks.map (fun c => c.source))).take top_k)
           then some (idxOptStr row.expected_source
              ((dedupFirst (chunks.map (fun c => c.source))).take top_k) + 1)
           else none) := rfl
    have e6 : (scoreCase top_k row chunks answer rms gms tms).reciprocal_rank
        = (if esTruthy row.expected_source && memOptStr row.expected_source
              ((dedupFirst (chunks.map (fun c => c.source))).take top_k)
           then 1 / ((idxOptStr row.expected_source
              ((dedupFirst (chunks.map (fun c => c.source))).take top_k) : ℚ) + 1)
           else 0) := rfl
    rw [e1, e3, e4, e5, e6, hes]
    refine ⟨?_, ?_, ?_, ?_, ?_⟩ <;>
      simp [hesT, memOptStr, idxOptStr, hmem]
  · intro habs
    have hesF : esTruthy row.expected_source = false := by
      rcases habs with h | h <;> rw [h] <;> decide
    have e1 : (scoreCase top_k row chunks answer rms gms tms).record.hit_at_1
        = (if esTruthy row.expected_source then
            (if (dedupFirst (chunks.map (fun c => c.source))).head? = row.expected_source
             then 1 else 0) else 0) := rfl
    have e3 : (scoreCase top_k row chunks answer rms gms tms).record.hit_at_3
        = (if esTruthy row.expected_source then
            (if memOptStr row.expected_source
                ((dedupFirst (chunks.map (fun c => c.source))).take 3) then 1 else 0)
           else 0) := rfl
    have e4 : (scoreCase top_k row chunks answer rms gms tms).record.hit_at_4
        = (if esTruthy row.expected_source then
            (if memOptStr row.expected_source
                ((dedupFirst (chunks.map (fun c => c.source))).take 4) then 1 else 0)
           else 0) := rfl
    have e5 : (scoreCase top_k row chunks answer rms gms tms).record.source_rank
        = (if esTruthy row.expected_source && memOptStr row.expected_source
              ((dedupFirst (chunks.map (fun c => c.source))).take top_k)
           then some (idxOptStr row.expected_source
              ((dedupFirst (chunks.map (fun c => c.source))).take top_k) + 1)
           else none) := rfl
    have e6 : (scoreCase top_k row chunks answer rms gms tms).reciprocal_rank
        = (if esTruthy row.expected_source && memOptStr row.expected_source
              ((dedupFirst (chunks.map (fun c => c.source))).take top_k)
           then 1 / ((idxOptStr row.expected_source
              ((dedupFirst (chunks.map (fun c => c.source))).take top_k) : ℚ) + 1)
           else 0) := rfl
    rw [e1, e3, e4, e5, e6]
    refine ⟨?_, ?_, ?_, ?_, ?_⟩ <;> simp [hesF]
  · refine ⟨by decide, by decide, by decide, by decide, ?_⟩
    have er : (scoreCase 4 ⟨none, "q", some "s2", []⟩
        [⟨"s1", "a"⟩, ⟨"s2", "b"⟩, ⟨"s3", "c"⟩, ⟨"s4", "d"⟩] "x" 0 0 0).reciprocal_rank
        = (if esTruthy (some "s2") && memOptStr (some "s2")
              ((dedupFirst ["s1", "s2", "s3", "s4"]).take 4)
           then 1 / ((idxOptStr (some "s2") ((dedupFirst ["s1", "s2", "s3", "s4"]).take 4)
              : ℚ) + 1)
           else 0) := rfl
    rw [er, if_pos (by decide)]
    have hidx : idxOptStr (some "s2") ((dedupFirst ["s1", "s2", "s3", "s4"]).take 4) = 1 := by
      decide
    rw [hidx]
    norm_num

/-- Witness for C6 at the claim's own instance: expected source present at
position 2 of four deduplicated sources with `top_k = 4`. -/
theorem rank_metrics_correct_witness :
    (scoreCase 4 ⟨none, "q", some "s2", []⟩
        [⟨"s1", "a"⟩, ⟨"s2", "b"⟩, ⟨"s3", "c"⟩, ⟨"s4", "d"⟩] "x" 0 0 0).record.hit_at_3
      = (if "s2" ∈ (dedupFirst (([⟨"s1", "a"⟩, ⟨"s2", "b"⟩, ⟨"s3", "c"⟩, ⟨"s4", "d"⟩]
          : List Chunk).map (fun c => c.source))).take 3 then 1 else 0) :=
  ((rank_metrics_correct 4 ⟨none, "q", some "s2", []⟩
      [⟨"s1", "a"⟩, ⟨"s2", "b"⟩, ⟨"s3", "c"⟩, ⟨"s4", "d"⟩] "x" 0 0 0).1
    "s2" rfl (by decide)).2.1

end RagEval
